import Mathlib

/-!
Shallow embedding of the MADlib logistic-regression aggregates
(`src/modules/regress/logistic.cpp`) and the Student-t CDF evaluator
(`src/modules/prob/student.cpp`), together with theorems checking the
natural-language specification against this embedding.

Modelling conventions:
* C++ `double` values are modelled by `ℝ` (exact real arithmetic);
  the `uint16_t`/`uint32_t`/`uint64_t` counters by `ℕ`.
* Armadillo column vectors are `List ℝ`; matrices are `List (List ℝ)`
  (row-major).  Armadillo element-wise vector arithmetic becomes
  `List.zipWith`/`List.map`.
* The flat `DOUBLE PRECISION` storage array of a transition state is not
  reproduced element by element; instead each named field of the C++
  `State` class is a field of a Lean structure, and the length of the
  underlying array (`mStorage.size()`, which the C++ merge step compares)
  is carried explicitly as `mStorageSize`.
* `throw std::logic_error`/`throw std::domain_error` become
  `Except.error`; the C `NAN` return of `studentT_cdf` becomes `none`.
-/

namespace Madlib

/-- Dot product of two vectors (Armadillo `as_scalar (x * v)` for a row
vector `x` and column vector `v`). -/
def dot (a b : List ℝ) : ℝ :=
  (List.zipWith (fun x y => x * y) a b).sum

/-- Element-wise vector addition (Armadillo `+` on vectors). -/
def vadd (a b : List ℝ) : List ℝ :=
  List.zipWith (fun x y => x + y) a b

/-- Element-wise vector subtraction (Armadillo `-` on vectors). -/
def vsub (a b : List ℝ) : List ℝ :=
  List.zipWith (fun x y => x - y) a b

/-- Scalar multiple of a vector (Armadillo `c * v`). -/
def smulv (c : ℝ) (a : List ℝ) : List ℝ :=
  a.map (fun x => c * x)

/-- Element-wise matrix addition (Armadillo `+` on matrices). -/
def madd (a b : List (List ℝ)) : List (List ℝ) :=
  List.zipWith (fun r1 r2 => List.zipWith (fun x y => x + y) r1 r2) a b

/-- The logistic function `sigma` of `logistic.cpp`:
`1. / (1. + std::exp(-x))`. -/
noncomputable def sigma (x : ℝ) : ℝ :=
  1 / (1 + Real.exp (-x))

/-- Modelled from the spec: the in-database label argument is a value that
the C++ code converts to a truth value (`*arg++ ? 1. : -1.`,
`logistic.cpp` lines 180 and 421).  The conversion operator of `AnyValue`
is not part of the sources at hand; following the spec's description of
the label as `{0,1} or ±1` and of the source representing "the binary
label as boolean then mapped to ±1", a numeric label is truthy iff it is
nonzero. -/
noncomputable def labelToSign (label : ℝ) : ℝ :=
  if label = 0 then -1 else 1

namespace LogisticRegressionCG

/-- Transition state of the conjugate-gradient aggregate
(`LogisticRegressionCG::State`).  `mStorageSize` models
`mStorage.size()`, the length of the flat double array backing the
state; all other fields are the named views declared in the class. -/
structure State where
  mStorageSize : ℕ
  iteration : ℕ
  widthOfX : ℕ
  coef : List ℝ
  dir : List ℝ
  grad : List ℝ
  beta : ℝ
  numRows : ℕ
  gradNew : List ℝ
  dTHd : ℝ
  logLikelihood : ℝ

/-- Source `State::arraySize`: `6 + 4 * inWidthOfX`. -/
def arraySize (inWidthOfX : ℕ) : ℕ :=
  6 + 4 * inWidthOfX

/-- Source `State::initialize`: rebind the storage to a fresh zeroed array of
`arraySize inWidthOfX` doubles and then `reset()` the intra-iteration
fields (which are already zero here). -/
def State.initialize (inWidthOfX : ℕ) : State where
  mStorageSize := arraySize inWidthOfX
  iteration := 0
  widthOfX := inWidthOfX
  coef := List.replicate inWidthOfX 0
  dir := List.replicate inWidthOfX 0
  grad := List.replicate inWidthOfX 0
  beta := 0
  numRows := 0
  gradNew := List.replicate inWidthOfX 0
  dTHd := 0
  logLikelihood := 0

/-- Source `State::reset`: zero the intra-iteration fields (`numRows`, `dTHd`,
`gradNew`, `logLikelihood`), leaving the inter-iteration fields alone. -/
def State.reset (s : State) : State :=
  { s with
    numRows := 0
    dTHd := 0
    gradNew := List.replicate s.widthOfX 0
    logLikelihood := 0 }

/-- Source `State::operator+=`: fatal consistency check on the storage size and
`widthOfX`, then field-wise addition of the intra-iteration fields. -/
def State.plusEq (s inOtherState : State) : Except String State :=
  if s.mStorageSize ≠ inOtherState.mStorageSize ∨
      s.widthOfX ≠ inOtherState.widthOfX then
    Except.error "Internal error: Incompatible transition states"
  else
    Except.ok
      { s with
        numRows := s.numRows + inOtherState.numRows
        gradNew := vadd s.gradNew inOtherState.gradNew
        dTHd := s.dTHd + inOtherState.dTHd
        logLikelihood := s.logLikelihood + inOtherState.logLikelihood }

/-- Source `LogisticRegressionCG::transition`.  The nullable fourth SQL argument
(the previous iteration's state) is an `Option`.  On the first row
(`numRows == 0`) the state is initialized from the width of `x`; if a
previous state is supplied it replaces the state wholesale and its
intra-iteration fields are reset. -/
noncomputable def transition (s0 : State) (label : ℝ) (x : List ℝ)
    (previousState : Option State) : State :=
  let y : ℝ := labelToSign label
  let state :=
    if s0.numRows = 0 then
      match previousState with
      | none => State.initialize x.length
      | some p => State.reset p
    else s0
  let state1 := { state with numRows := state.numRows + 1 }
  let xc : ℝ := dot x state1.coef
  let xd : ℝ := dot x state1.dir
  let state2 :=
    if state1.iteration % 2 = 0 then
      { state1 with gradNew := vadd state1.gradNew (smulv (sigma (-y * xc) * y) x) }
    else
      { state1 with dTHd := state1.dTHd - sigma xc * sigma (-xc) * xd * xd }
  { state2 with
    logLikelihood := state2.logLikelihood - Real.log (1 + Real.exp (-y * xc)) }

/-- Source `LogisticRegressionCG::mergeStates`: return the other operand when
either operand has seen no rows, otherwise `operator+=`. -/
def mergeStates (stateLeft stateRight : State) : Except String State :=
  if stateLeft.numRows = 0 then Except.ok stateRight
  else if stateRight.numRows = 0 then Except.ok stateLeft
  else State.plusEq stateLeft stateRight

/-- Source `LogisticRegressionCG::final`: the three-case iteration state
machine, followed by `state.iteration++`. -/
noncomputable def final (s : State) : State :=
  let s1 :=
    if s.iteration = 0 then
      { s with dir := s.gradNew, grad := s.gradNew }
    else if s.iteration % 2 = 0 then
      let gradNewMinusGrad := vsub s.gradNew s.grad
      let betaNew := dot s.gradNew gradNewMinusGrad / dot s.dir gradNewMinusGrad
      { s with
        beta := betaNew
        dir := vsub s.gradNew (smulv betaNew s.dir)
        grad := s.gradNew }
    else
      { s with coef := vsub s.coef (smulv (dot s.grad s.dir / s.dTHd) s.dir) }
  { s1 with iteration := s1.iteration + 1 }

end LogisticRegressionCG

namespace LogisticRegressionIRLS

/-- Transition state of the iteratively-reweighted-least-squares
aggregate (`LogisticRegressionIRLS::State`).  As for the CG variant,
`mStorageSize` models `mStorage.size()`. -/
structure State where
  mStorageSize : ℕ
  widthOfX : ℕ
  coef : List ℝ
  numRows : ℕ
  X_transp_Az : List ℝ
  X_transp_AX : List (List ℝ)
  logLikelihood : ℝ

/-- Source `State::arraySize`: `3 + inWidthOfX * inWidthOfX + 2 * inWidthOfX`. -/
def arraySize (inWidthOfX : ℕ) : ℕ :=
  3 + inWidthOfX * inWidthOfX + 2 * inWidthOfX

/-- Source `State::initialize` for the IRLS variant. -/
def State.initialize (inWidthOfX : ℕ) : State where
  mStorageSize := arraySize inWidthOfX
  widthOfX := inWidthOfX
  coef := List.replicate inWidthOfX 0
  numRows := 0
  X_transp_Az := List.replicate inWidthOfX 0
  X_transp_AX := List.replicate inWidthOfX (List.replicate inWidthOfX 0)
  logLikelihood := 0

/-- Source `State::reset` for the IRLS variant: zero `numRows`, `X_transp_Az`,
`X_transp_AX` and `logLikelihood`. -/
def State.reset (s : State) : State :=
  { s with
    numRows := 0
    X_transp_Az := List.replicate s.widthOfX 0
    X_transp_AX := List.replicate s.widthOfX (List.replicate s.widthOfX 0)
    logLikelihood := 0 }

/-- Source `State::operator+=` for the IRLS variant: same consistency check,
then field-wise addition of the intra-iteration fields. -/
def State.plusEq (s inOtherState : State) : Except String State :=
  if s.mStorageSize ≠ inOtherState.mStorageSize ∨
      s.widthOfX ≠ inOtherState.widthOfX then
    Except.error "Internal error: Incompatible transition states"
  else
    Except.ok
      { s with
        numRows := s.numRows + inOtherState.numRows
        X_transp_Az := vadd s.X_transp_Az inOtherState.X_transp_Az
        X_transp_AX := madd s.X_transp_AX inOtherState.X_transp_AX
        logLikelihood := s.logLikelihood + inOtherState.logLikelihood }

/-- Source `LogisticRegressionIRLS::transition`:
`a = sigma(xc) * sigma(-xc)`, `z = xc + sigma(-y*xc)*y/a`,
`X_transp_Az += trans(x)*a*z`, `X_transp_AX += trans(x)*a*x`, and the
same log-likelihood term as the CG variant. -/
noncomputable def transition (s0 : State) (label : ℝ) (x : List ℝ)
    (previousState : Option State) : State :=
  let y : ℝ := labelToSign label
  let state :=
    if s0.numRows = 0 then
      match previousState with
      | none => State.initialize x.length
      | some p => State.reset p
    else s0
  let state1 := { state with numRows := state.numRows + 1 }
  let xc : ℝ := dot x state1.coef
  let a : ℝ := sigma xc * sigma (-xc)
  let z : ℝ := xc + sigma (-y * xc) * y / a
  let state2 :=
    { state1 with
      X_transp_Az := vadd state1.X_transp_Az (x.map (fun xi => xi * a * z))
      X_transp_AX := madd state1.X_transp_AX
        (x.map (fun xi => x.map (fun xj => xi * a * xj))) }
  { state2 with
    logLikelihood := state2.logLikelihood - Real.log (1 + Real.exp (-y * xc)) }

/-- Source `LogisticRegressionIRLS::mergeStates`: identical short-circuit
structure to the CG variant. -/
def mergeStates (stateLeft stateRight : State) : Except String State :=
  if stateLeft.numRows = 0 then Except.ok stateRight
  else if stateRight.numRows = 0 then Except.ok stateLeft
  else State.plusEq stateLeft stateRight

end LogisticRegressionIRLS

namespace Prob

/-- The error function, the real-valued semantics of `boost::math::erf`
used by `student.cpp`: `erf x = 2/√π · ∫ s in 0..x, exp (-s²)`. -/
noncomputable def erf (x : ℝ) : ℝ :=
  2 / Real.sqrt Real.pi * ∫ s in (0:ℝ)..x, Real.exp (-(s ^ 2))

/-- Source `normal_cdf` of `student.cpp`:
`.5 + .5 * boost::math::erf(t / std::sqrt(2.))`. -/
noncomputable def normal_cdf (t : ℝ) : ℝ :=
  0.5 + 0.5 * erf (t / Real.sqrt 2)

/-- Source `studentT_cdf_approx` of `student.cpp`: Gleason's normal
approximation, with the sign of `t` flipped onto the transformed
argument. -/
noncomputable def studentT_cdf_approx (nu : ℤ) (t : ℝ) : ℝ :=
  let g : ℝ := ((nu : ℝ) - 1.5) / (((nu : ℝ) - 1) * ((nu : ℝ) - 1))
  let z : ℝ := Real.sqrt (Real.log (1 + t * t / (nu : ℝ)) / g)
  let z2 : ℝ := if t < 0 then -z else z
  normal_cdf z2

/-- The even values `2, 4, …, 2·count` that the series loops of
`studentT_cdf` run over. -/
def seriesJs (count : ℕ) : List ℕ :=
  (List.range count).map (fun i => 2 * (i + 1))

/-- One series loop of `studentT_cdf`: starting from
`prod = 1, sum = 1`, iterate `prod ← prod * step j; sum ← sum + prod`
over the given list of loop indices, returning `(prod, sum)`. -/
def seriesLoop (js : List ℕ) (step : ℕ → ℝ) : ℝ × ℝ :=
  js.foldl (fun ps j => (ps.1 * step j, ps.2 + ps.1 * step j)) (1, 1)

/-- The quantity `A` (`= Pr[|T| ≤ t]`, before clamping) computed by the
series branch (`nu < 200`) of `studentT_cdf`:

* `nu = 1`: `A = 2/π · atan(t_by_sqrt_nu)`;
* odd `nu > 1`: loop `j = 2, 4, …, nu-3` with
  `prod ← prod·j/((j+1)·z)`, then
  `A = 2/π · (atan(t_by_sqrt_nu) + t_by_sqrt_nu/z · sum)`;
* even `nu`: loop `j = 2, 4, …, nu-2` with `prod ← prod·(j-1)/(j·z)`,
  then `A = t_by_sqrt_nu/√z · sum`;

where `z = 1 + t²/nu` and `t_by_sqrt_nu = |t|/√nu`. -/
noncomputable def seriesA (nu : ℤ) (t : ℝ) : ℝ :=
  let z : ℝ := 1 + t * t / (nu : ℝ)
  let t_by_sqrt_nu : ℝ := |t| / Real.sqrt (nu : ℝ)
  if nu = 1 then
    2 / Real.pi * Real.arctan t_by_sqrt_nu
  else if nu % 2 = 1 then
    2 / Real.pi * (Real.arctan t_by_sqrt_nu + t_by_sqrt_nu / z *
      (seriesLoop (seriesJs (((nu - 3) / 2).toNat))
        (fun j => (j : ℝ) / (((j : ℝ) + 1) * z))).2)
  else
    t_by_sqrt_nu / Real.sqrt z *
      (seriesLoop (seriesJs (((nu - 2) / 2).toNat))
        (fun j => ((j : ℝ) - 1) / ((j : ℝ) * z))).2

/-- The clamp of `A` to `[0,1]` performed by `studentT_cdf`:
`if (A > 1.) A = 1.; else if (A < 0.) A = 0.;`. -/
noncomputable def clampA (A : ℝ) : ℝ :=
  if A > 1 then 1 else if A < 0 then 0 else A

/-- Source `studentT_cdf` of `student.cpp`.  The C function returns `NAN` for
`nu ≤ 0`; that is modelled as `none`.  For `nu ≥ 1000000` the normal
approximation is used, for `200 ≤ nu < 1000000` Gleason's approximation,
and for `1 ≤ nu < 200` the Abramowitz–Stegun series, clamped to `[0,1]`
and folded by the symmetry `Pr[T ≤ t] = 1 - .5·(1 - A)` for `t ≥ 0` and
`.5·(1 - A)` for `t < 0`. -/
noncomputable def studentT_cdf (nu : ℤ) (t : ℝ) : Option ℝ :=
  if nu ≤ 0 then none
  else if 1000000 ≤ nu then some (normal_cdf t)
  else if 200 ≤ nu then some (studentT_cdf_approx nu t)
  else
    let A : ℝ := clampA (seriesA nu t)
    some (if t < 0 then 0.5 * (1 - A) else 1 - 0.5 * (1 - A))

/-- The in-database wrapper `student_t_cdf`: throws
`std::domain_error` for `nu ≤ 0`, otherwise delegates to
`studentT_cdf`. -/
noncomputable def student_t_cdf (nu : ℤ) (t : ℝ) : Except String (Option ℝ) :=
  if nu ≤ 0 then
    Except.error "Student-t distribution undefined for degree of freedom <= 0"
  else
    Except.ok (studentT_cdf nu t)

end Prob

/-- A CG state with `numRows = 0` is *fully reset* when its
intra-iteration fields carry no data, exactly as `State::reset`
leaves them.  States produced by the aggregate protocol (fresh zeroed
states, or a seeded copy of a previous state) have this property. -/
def LogisticRegressionCG.State.resetIfEmpty
    (s : LogisticRegressionCG.State) : Prop :=
  s.numRows = 0 →
    s.gradNew = List.replicate s.widthOfX 0 ∧ s.dTHd = 0 ∧ s.logLikelihood = 0

/-- IRLS analogue of `LogisticRegressionCG.State.resetIfEmpty`. -/
def LogisticRegressionIRLS.State.resetIfEmpty
    (s : LogisticRegressionIRLS.State) : Prop :=
  s.numRows = 0 →
    s.X_transp_Az = List.replicate s.widthOfX 0 ∧
    s.X_transp_AX = List.replicate s.widthOfX (List.replicate s.widthOfX 0) ∧
    s.logLikelihood = 0

/-- The all-zero CG state of width 0 — the database-provided initial
state for a length-6 zeroed array. -/
def cgZeroA : LogisticRegressionCG.State where
  mStorageSize := 6
  iteration := 0
  widthOfX := 0
  coef := []
  dir := []
  grad := []
  beta := 0
  numRows := 0
  gradNew := []
  dTHd := 0
  logLikelihood := 0

/-- The all-zero CG state of width 1 (length-10 zeroed array). -/
def cgZeroB : LogisticRegressionCG.State where
  mStorageSize := 10
  iteration := 0
  widthOfX := 1
  coef := [0]
  dir := [0]
  grad := [0]
  beta := 0
  numRows := 0
  gradNew := [0]
  dTHd := 0
  logLikelihood := 0

/-- A width-1 CG state with `numRows = 0` whose `logLikelihood` field is
nevertheless nonzero. -/
def cgEmptyB : LogisticRegressionCG.State :=
  { cgZeroB with logLikelihood := 1 }

/-- A width-1 CG accumulator over one row. -/
def cgW1 : LogisticRegressionCG.State where
  mStorageSize := 10
  iteration := 0
  widthOfX := 1
  coef := [0]
  dir := [0]
  grad := [0]
  beta := 0
  numRows := 1
  gradNew := [1]
  dTHd := 2
  logLikelihood := -1

/-- A width-1 CG accumulator over two rows with the same inter-iteration
fields as `cgW1`. -/
def cgW2 : LogisticRegressionCG.State :=
  { cgW1 with numRows := 2, gradNew := [3], dTHd := 5, logLikelihood := -2 }

/-- A width-1 CG accumulator over three rows with the same
inter-iteration fields as `cgW1`. -/
def cgW3 : LogisticRegressionCG.State :=
  { cgW1 with numRows := 3, gradNew := [7], dTHd := 11, logLikelihood := -4 }

/-- A CG accumulator with `numRows = 5`, a nonzero gradient accumulator
and a nonzero log-likelihood, as `final` receives it at the end of the
bootstrap pass. -/
def cgFull : LogisticRegressionCG.State where
  mStorageSize := 10
  iteration := 0
  widthOfX := 1
  coef := [0]
  dir := [0]
  grad := [0]
  beta := 0
  numRows := 5
  gradNew := [2]
  dTHd := 3
  logLikelihood := 1

/-- A width-2 CG accumulator over one row, shape-incompatible with the
width-1 states. -/
def cgWide : LogisticRegressionCG.State where
  mStorageSize := 14
  iteration := 0
  widthOfX := 2
  coef := [0, 0]
  dir := [0, 0]
  grad := [0, 0]
  beta := 0
  numRows := 1
  gradNew := [1, 1]
  dTHd := 2
  logLikelihood := -1

/-- A width-1 IRLS accumulator over one row. -/
def irlsW1 : LogisticRegressionIRLS.State where
  mStorageSize := 6
  widthOfX := 1
  coef := [0]
  numRows := 1
  X_transp_Az := [1]
  X_transp_AX := [[1]]
  logLikelihood := -1

/-- A width-1 IRLS accumulator over two rows with the same
inter-iteration fields as `irlsW1`. -/
def irlsW2 : LogisticRegressionIRLS.State :=
  { irlsW1 with numRows := 2, X_transp_Az := [3], X_transp_AX := [[5]], logLikelihood := -2 }

/-- A width-1 IRLS accumulator over three rows with the same
inter-iteration fields as `irlsW1`. -/
def irlsW3 : LogisticRegressionIRLS.State :=
  { irlsW1 with numRows := 3, X_transp_Az := [7], X_transp_AX := [[11]], logLikelihood := -4 }

/-- The all-zero IRLS state of width 1. -/
def irlsZero : LogisticRegressionIRLS.State where
  mStorageSize := 6
  widthOfX := 1
  coef := [0]
  numRows := 0
  X_transp_Az := [0]
  X_transp_AX := [[0]]
  logLikelihood := 0

/-- A width-2 IRLS accumulator over one row, shape-incompatible with the
width-1 states. -/
def irlsWide : LogisticRegressionIRLS.State where
  mStorageSize := 11
  widthOfX := 2
  coef := [0, 0]
  numRows := 1
  X_transp_Az := [1, 1]
  X_transp_AX := [[1, 0], [0, 1]]
  logLikelihood := -1

/-! ## Helper lemmas -/

/-- Lemma: `List.zipWith` of an associative operation is associative. -/
theorem zipWith_assoc {α : Type} (f : α → α → α)
    (hf : ∀ a b c, f (f a b) c = f a (f b c)) :
    ∀ a b c : List α,
      List.zipWith f (List.zipWith f a b) c =
        List.zipWith f a (List.zipWith f b c)
  | [], _, _ => by simp
  | _ :: _, [], _ => by simp
  | _ :: _, _ :: _, [] => by simp
  | x :: as, y :: bs, z :: cs => by
    simp only [List.zipWith_cons_cons, List.cons.injEq]
    exact ⟨hf x y z, zipWith_assoc f hf as bs cs⟩

/-- Lemma: `vadd` is associative. -/
theorem vadd_assoc (a b c : List ℝ) : vadd (vadd a b) c = vadd a (vadd b c) := by
  unfold vadd
  exact zipWith_assoc _ (fun x y z => add_assoc x y z) a b c

/-- Lemma: `vadd` is commutative. -/
theorem vadd_comm (a b : List ℝ) : vadd a b = vadd b a := by
  unfold vadd
  exact List.zipWith_comm_of_comm _ add_comm a b

/-- Lemma: `madd` is associative. -/
theorem madd_assoc (a b c : List (List ℝ)) :
    madd (madd a b) c = madd a (madd b c) := by
  unfold madd
  exact zipWith_assoc _
    (fun r1 r2 r3 => zipWith_assoc _ (fun x y z => add_assoc x y z) r1 r2 r3) a b c

/-- Lemma: `madd` is commutative. -/
theorem madd_comm (a b : List (List ℝ)) : madd a b = madd b a := by
  unfold madd
  exact List.zipWith_comm_of_comm _
    (fun r1 r2 => List.zipWith_comm_of_comm _ add_comm r1 r2) a b

/-! ## C1: the CG finalizer state machine -/

/-- C1: the CG finalizer implements a three-case state machine keyed on
the iteration counter: at `iteration = 0` it sets `dir` and `grad` to
the accumulated gradient, leaving the coefficients unchanged; at even
`iteration > 0` it computes the Polak–Ribière `betaScale` from
`Δ = gradNew - grad`, sets `dir ← gradNew - betaScale·dir` and
`grad ← gradNew`, leaving the coefficients unchanged; at odd `iteration`
it updates `coef ← coef - (grad·dir / dTHd)·dir`; and in every case the
iteration counter is incremented by exactly 1. -/
theorem cg_final_three_case_state_machine (s : LogisticRegressionCG.State) :
    (LogisticRegressionCG.final s).iteration = s.iteration + 1 ∧
    (s.iteration = 0 →
      LogisticRegressionCG.final s =
        { s with
            dir := s.gradNew
            grad := s.gradNew
            iteration := s.iteration + 1 }) ∧
    (s.iteration ≠ 0 → s.iteration % 2 = 0 →
      LogisticRegressionCG.final s =
        { s with
            beta := dot s.gradNew (vsub s.gradNew s.grad) /
              dot s.dir (vsub s.gradNew s.grad)
            dir := vsub s.gradNew
              (smulv (dot s.gradNew (vsub s.gradNew s.grad) /
                dot s.dir (vsub s.gradNew s.grad)) s.dir)
            grad := s.gradNew
            iteration := s.iteration + 1 }) ∧
    (s.iteration % 2 = 1 →
      LogisticRegressionCG.final s =
        { s with
            coef := vsub s.coef (smulv (dot s.grad s.dir / s.dTHd) s.dir)
            iteration := s.iteration + 1 }) := by
  refine ⟨?_, ?_, ?_, ?_⟩
  · simp only [LogisticRegressionCG.final]
    split_ifs <;> rfl
  · intro h0
    simp [LogisticRegressionCG.final, h0]
  · intro h0 he
    simp [LogisticRegressionCG.final, h0, he]
  · intro ho
    have h0 : s.iteration ≠ 0 := by omega
    have he : ¬ s.iteration % 2 = 0 := by omega
    simp [LogisticRegressionCG.final, h0, he]

/-- Witness for `cg_final_three_case_state_machine` at the concrete
bootstrap-pass state `cgFull`. -/
theorem cg_final_three_case_state_machine_witness :
    cgFull.iteration = 0 ∧
    (LogisticRegressionCG.final cgFull).iteration = cgFull.iteration + 1 ∧
    LogisticRegressionCG.final cgFull =
      { cgFull with
          dir := cgFull.gradNew
          grad := cgFull.gradNew
          iteration := cgFull.iteration + 1 } :=
  ⟨rfl, (cg_final_three_case_state_machine cgFull).1,
    (cg_final_three_case_state_machine cgFull).2.1 rfl⟩

/-! ## C2: what the CG finalizer does to the intra-iteration fields -/

/-- C2 counterexample: the state returned by `final` does *not* have its
intra-iteration fields reset to zero.  At the concrete accumulator
`cgFull` (five rows seen, nonzero gradient accumulator, `dTHd` and
log-likelihood), the finalized state keeps all of them. -/
theorem cg_final_reset_cex :
    ¬ ((LogisticRegressionCG.final cgFull).numRows = 0 ∧
       (LogisticRegressionCG.final cgFull).gradNew =
         List.replicate (LogisticRegressionCG.final cgFull).widthOfX 0 ∧
       (LogisticRegressionCG.final cgFull).dTHd = 0 ∧
       (LogisticRegressionCG.final cgFull).logLikelihood = 0) := by
  intro h
  have h1 := h.1
  simp [LogisticRegressionCG.final, cgFull] at h1

/-- C2 amended: after the CG finalize the iteration counter has been
incremented by 1, but the intra-iteration fields (`numRows`, `gradNew`,
`dTHd`, `logLikelihood`) are carried in the returned state unchanged;
they are zeroed only by `State::reset`, which the transition function
invokes on the first row of the next pass. -/
theorem cg_final_increments_iteration_reset_deferred
    (s s' : LogisticRegressionCG.State) :
    (LogisticRegressionCG.final s).iteration = s.iteration + 1 ∧
    (LogisticRegressionCG.final s).numRows = s.numRows ∧
    (LogisticRegressionCG.final s).gradNew = s.gradNew ∧
    (LogisticRegressionCG.final s).dTHd = s.dTHd ∧
    (LogisticRegressionCG.final s).logLikelihood = s.logLikelihood ∧
    (s'.reset.numRows = 0 ∧
     s'.reset.gradNew = List.replicate s'.widthOfX 0 ∧
     s'.reset.dTHd = 0 ∧
     s'.reset.logLikelihood = 0) := by
  refine ⟨?_, ?_, ?_, ?_, ?_, by simp [LogisticRegressionCG.State.reset]⟩ <;>
    · simp only [LogisticRegressionCG.final]
      split_ifs <;> rfl

/-! ## C3: zero-row accumulators and merge -/

/-- C3 counterexample: a zero-row accumulator is *not* a two-sided
identity of merge.  With both operands at `numRows = 0` but of different
shapes, `mergeStates` returns the right operand even though the right
operand also has `rowsSeen == 0` (the claim would require the left
operand back). -/
theorem merge_zero_row_identity_cex :
    cgZeroB.numRows = 0 ∧
    LogisticRegressionCG.mergeStates cgZeroA cgZeroB ≠ Except.ok cgZeroA := by
  constructor
  · rfl
  · simp [LogisticRegressionCG.mergeStates, cgZeroA, cgZeroB]

/-- C3 amended: in both variants, if the left operand has
`rowsSeen == 0` then merge returns the right operand unchanged;
otherwise, if the right operand has `rowsSeen == 0`, merge returns the
left operand unchanged.  (A zero-row accumulator is therefore an
identity except when *both* operands are zero-row and differ, in which
case the right operand is returned.) -/
theorem merge_zero_row_short_circuit :
    (∀ A B : LogisticRegressionCG.State,
      (A.numRows = 0 → LogisticRegressionCG.mergeStates A B = Except.ok B) ∧
      (A.numRows ≠ 0 → B.numRows = 0 →
        LogisticRegressionCG.mergeStates A B = Except.ok A)) ∧
    (∀ A B : LogisticRegressionIRLS.State,
      (A.numRows = 0 → LogisticRegressionIRLS.mergeStates A B = Except.ok B) ∧
      (A.numRows ≠ 0 → B.numRows = 0 →
        LogisticRegressionIRLS.mergeStates A B = Except.ok A)) := by
  refine ⟨fun A B => ⟨?_, ?_⟩, fun A B => ⟨?_, ?_⟩⟩ <;> intros <;>
    simp [LogisticRegressionCG.mergeStates, LogisticRegressionIRLS.mergeStates, *]

/-- Witness for `merge_zero_row_short_circuit` at concrete states. -/
theorem merge_zero_row_short_circuit_witness :
    LogisticRegressionCG.mergeStates cgZeroB cgW1 = Except.ok cgW1 ∧
    LogisticRegressionCG.mergeStates cgW1 cgZeroB = Except.ok cgW1 ∧
    LogisticRegressionIRLS.mergeStates irlsZero irlsW1 = Except.ok irlsW1 ∧
    LogisticRegressionIRLS.mergeStates irlsW1 irlsZero = Except.ok irlsW1 :=
  ⟨(merge_zero_row_short_circuit.1 cgZeroB cgW1).1 rfl,
   (merge_zero_row_short_circuit.1 cgW1 cgZeroB).2 (by decide) rfl,
   (merge_zero_row_short_circuit.2 irlsZero irlsW1).1 rfl,
   (merge_zero_row_short_circuit.2 irlsW1 irlsZero).2 (by decide) rfl⟩

/-! ## C5: merge of incompatible non-empty accumulators -/

/-- C5: in both variants, merging two accumulators that have both seen
rows but disagree on `widthOfX` or on the total storage size yields the
fatal internal-consistency error — never a combined accumulator. -/
theorem merge_mismatch_internal_error :
    (∀ A B : LogisticRegressionCG.State, A.numRows ≠ 0 → B.numRows ≠ 0 →
      A.widthOfX ≠ B.widthOfX ∨ A.mStorageSize ≠ B.mStorageSize →
      LogisticRegressionCG.mergeStates A B =
        Except.error "Internal error: Incompatible transition states") ∧
    (∀ A B : LogisticRegressionIRLS.State, A.numRows ≠ 0 → B.numRows ≠ 0 →
      A.widthOfX ≠ B.widthOfX ∨ A.mStorageSize ≠ B.mStorageSize →
      LogisticRegressionIRLS.mergeStates A B =
        Except.error "Internal error: Incompatible transition states") := by
  constructor <;> intro A B h1 h2 h3 <;> rcases h3 with h | h <;>
    simp [LogisticRegressionCG.mergeStates, LogisticRegressionIRLS.mergeStates,
      LogisticRegressionCG.State.plusEq, LogisticRegressionIRLS.State.plusEq,
      h1, h2, h]

/-- Witness for `merge_mismatch_internal_error` at concrete
shape-incompatible states. -/
theorem merge_mismatch_internal_error_witness :
    cgW1.numRows ≠ 0 ∧ cgWide.numRows ≠ 0 ∧ cgW1.widthOfX ≠ cgWide.widthOfX ∧
    LogisticRegressionCG.mergeStates cgW1 cgWide =
      Except.error "Internal error: Incompatible transition states" ∧
    LogisticRegressionIRLS.mergeStates irlsW1 irlsWide =
      Except.error "Internal error: Incompatible transition states" :=
  ⟨by decide, by decide, by decide,
   merge_mismatch_internal_error.1 cgW1 cgWide (by decide) (by decide)
     (Or.inl (by decide)),
   merge_mismatch_internal_error.2 irlsW1 irlsWide (by decide) (by decide)
     (Or.inl (by decide))⟩

/-! ## C4: merge associativity and commutativity -/

/-- C4 counterexample: merge is *not* commutative on the full state
space even for operands of equal shape and equal inter-iteration
fields.  `cgZeroB` and `cgEmptyB` agree on every inter-iteration field,
width and size, and both have `rowsSeen == 0`, but `cgEmptyB` carries a
stale nonzero `logLikelihood`; the short-circuit returns the right
operand in one order and the left in the other, and the two results
differ. -/
theorem merge_comm_unreset_empty_cex :
    cgZeroB.widthOfX = cgEmptyB.widthOfX ∧
    cgZeroB.mStorageSize = cgEmptyB.mStorageSize ∧
    cgZeroB.iteration = cgEmptyB.iteration ∧
    cgZeroB.coef = cgEmptyB.coef ∧
    cgZeroB.dir = cgEmptyB.dir ∧
    cgZeroB.grad = cgEmptyB.grad ∧
    cgZeroB.beta = cgEmptyB.beta ∧
    LogisticRegressionCG.mergeStates cgZeroB cgEmptyB ≠
      LogisticRegressionCG.mergeStates cgEmptyB cgZeroB := by
  refine ⟨rfl, rfl, rfl, rfl, rfl, rfl, rfl, ?_⟩
  simp [LogisticRegressionCG.mergeStates, cgZeroB, cgEmptyB]

/-- C4 amended: over exact real arithmetic, for accumulators of the same
`coefficientWidth` and total size whose inter-iteration fields are equal
— and such that any operand with `rowsSeen == 0` has its intra-iteration
fields fully reset (as `State::reset` leaves them) — merge is
associative and commutative, in both the CG and the IRLS variant. -/
theorem merge_assoc_comm_of_reset_empties :
    (∀ A B C : LogisticRegressionCG.State,
      A.widthOfX = B.widthOfX → B.widthOfX = C.widthOfX →
      A.mStorageSize = B.mStorageSize → B.mStorageSize = C.mStorageSize →
      A.iteration = B.iteration → B.iteration = C.iteration →
      A.coef = B.coef → B.coef = C.coef →
      A.dir = B.dir → B.dir = C.dir →
      A.grad = B.grad → B.grad = C.grad →
      A.beta = B.beta → B.beta = C.beta →
      A.resetIfEmpty → B.resetIfEmpty → C.resetIfEmpty →
      ((LogisticRegressionCG.mergeStates A B).bind
          (fun ab => LogisticRegressionCG.mergeStates ab C) =
        (LogisticRegressionCG.mergeStates B C).bind
          (fun bc => LogisticRegressionCG.mergeStates A bc)) ∧
      LogisticRegressionCG.mergeStates A B =
        LogisticRegressionCG.mergeStates B A) ∧
    (∀ A B C : LogisticRegressionIRLS.State,
      A.widthOfX = B.widthOfX → B.widthOfX = C.widthOfX →
      A.mStorageSize = B.mStorageSize → B.mStorageSize = C.mStorageSize →
      A.coef = B.coef → B.coef = C.coef →
      A.resetIfEmpty → B.resetIfEmpty → C.resetIfEmpty →
      ((LogisticRegressionIRLS.mergeStates A B).bind
          (fun ab => LogisticRegressionIRLS.mergeStates ab C) =
        (LogisticRegressionIRLS.mergeStates B C).bind
          (fun bc => LogisticRegressionIRLS.mergeStates A bc)) ∧
      LogisticRegressionIRLS.mergeStates A B =
        LogisticRegressionIRLS.mergeStates B A) := by
  constructor
  · intro A B C hw1 hw2 hs1 hs2 hit1 hit2 hc1 hc2 hd1 hd2 hg1 hg2 hb1 hb2 rA rB rC
    constructor
    · by_cases hA : A.numRows = 0
      · have hab : LogisticRegressionCG.mergeStates A B = Except.ok B := by
          simp [LogisticRegressionCG.mergeStates, hA]
        rw [hab]
        cases hbc : LogisticRegressionCG.mergeStates B C with
        | error e => simp [hbc, Except.bind]
        | ok bc =>
          have habc : LogisticRegressionCG.mergeStates A bc = Except.ok bc := by
            simp [LogisticRegressionCG.mergeStates, hA]
          simp [hbc, Except.bind, habc]
      · by_cases hB : B.numRows = 0
        · simp [LogisticRegressionCG.mergeStates, hA, hB, Except.bind]
        · by_cases hC : C.numRows = 0
          · have hab : A.numRows + B.numRows ≠ 0 := by omega
            simp [LogisticRegressionCG.mergeStates, hA, hB, hC, hab,
              LogisticRegressionCG.State.plusEq, hs1, hw1, Except.bind]
          · have hab : A.numRows + B.numRows ≠ 0 := by omega
            have hbc : B.numRows + C.numRows ≠ 0 := by omega
            simp [LogisticRegressionCG.mergeStates, hA, hB, hC, hab, hbc,
              LogisticRegressionCG.State.plusEq, hs1, hs2, hw1, hw2,
              Except.bind, vadd_assoc, Nat.add_assoc, add_assoc]
    · by_cases hA : A.numRows = 0
      · by_cases hB : B.numRows = 0
        · have hAB : A = B := by
            have h1 := rA hA
            have h2 := rB hB
            cases A; cases B; simp_all
          rw [hAB]
        · simp [LogisticRegressionCG.mergeStates, hA, hB]
      · by_cases hB : B.numRows = 0
        · simp [LogisticRegressionCG.mergeStates, hA, hB]
        · simp only [LogisticRegressionCG.mergeStates, if_neg hA, if_neg hB,
            LogisticRegressionCG.State.plusEq]
          rw [if_neg (by simp [hs1, hw1]), if_neg (by simp [hs1, hw1])]
          refine congrArg Except.ok ?_
          cases A; cases B
          simp_all [vadd_comm, Nat.add_comm, add_comm]
  · intro A B C hw1 hw2 hs1 hs2 hc1 hc2 rA rB rC
    constructor
    · by_cases hA : A.numRows = 0
      · have hab : LogisticRegressionIRLS.mergeStates A B = Except.ok B := by
          simp [LogisticRegressionIRLS.mergeStates, hA]
        rw [hab]
        cases hbc : LogisticRegressionIRLS.mergeStates B C with
        | error e => simp [hbc, Except.bind]
        | ok bc =>
          have habc : LogisticRegressionIRLS.mergeStates A bc = Except.ok bc := by
            simp [LogisticRegressionIRLS.mergeStates, hA]
          simp [hbc, Except.bind, habc]
      · by_cases hB : B.numRows = 0
        · simp [LogisticRegressionIRLS.mergeStates, hA, hB, Except.bind]
        · by_cases hC : C.numRows = 0
          · have hab : A.numRows + B.numRows ≠ 0 := by omega
            simp [LogisticRegressionIRLS.mergeStates, hA, hB, hC, hab,
              LogisticRegressionIRLS.State.plusEq, hs1, hw1, Except.bind]
          · have hab : A.numRows + B.numRows ≠ 0 := by omega
            have hbc : B.numRows + C.numRows ≠ 0 := by omega
            simp [LogisticRegressionIRLS.mergeStates, hA, hB, hC, hab, hbc,
              LogisticRegressionIRLS.State.plusEq, hs1, hs2, hw1, hw2,
              Except.bind, vadd_assoc, madd_assoc, Nat.add_assoc, add_assoc]
    · by_cases hA : A.numRows = 0
      · by_cases hB : B.numRows = 0
        · have hAB : A = B := by
            have h1 := rA hA
            have h2 := rB hB
            cases A; cases B; simp_all
          rw [hAB]
        · simp [LogisticRegressionIRLS.mergeStates, hA, hB]
      · by_cases hB : B.numRows = 0
        · simp [LogisticRegressionIRLS.mergeStates, hA, hB]
        · simp only [LogisticRegressionIRLS.mergeStates, if_neg hA, if_neg hB,
            LogisticRegressionIRLS.State.plusEq]
          rw [if_neg (by simp [hs1, hw1]), if_neg (by simp [hs1, hw1])]
          refine congrArg Except.ok ?_
          cases A; cases B
          simp_all [vadd_comm, madd_comm, Nat.add_comm, add_comm]

/-- Witness for `merge_assoc_comm_of_reset_empties` at concrete
non-empty accumulators of equal shape and inter-iteration fields. -/
theorem merge_assoc_comm_of_reset_empties_witness :
    (((LogisticRegressionCG.mergeStates cgW1 cgW2).bind
        (fun ab => LogisticRegressionCG.mergeStates ab cgW3) =
      (LogisticRegressionCG.mergeStates cgW2 cgW3).bind
        (fun bc => LogisticRegressionCG.mergeStates cgW1 bc)) ∧
     LogisticRegressionCG.mergeStates cgW1 cgW2 =
       LogisticRegressionCG.mergeStates cgW2 cgW1) ∧
    (((LogisticRegressionIRLS.mergeStates irlsW1 irlsW2).bind
        (fun ab => LogisticRegressionIRLS.mergeStates ab irlsW3) =
      (LogisticRegressionIRLS.mergeStates irlsW2 irlsW3).bind
        (fun bc => LogisticRegressionIRLS.mergeStates irlsW1 bc)) ∧
     LogisticRegressionIRLS.mergeStates irlsW1 irlsW2 =
       LogisticRegressionIRLS.mergeStates irlsW2 irlsW1) :=
  ⟨merge_assoc_comm_of_reset_empties.1 cgW1 cgW2 cgW3 rfl rfl rfl rfl rfl rfl
      rfl rfl rfl rfl rfl rfl rfl rfl
      (fun h => absurd h (by decide)) (fun h => absurd h (by decide))
      (fun h => absurd h (by decide)),
   merge_assoc_comm_of_reset_empties.2 irlsW1 irlsW2 irlsW3 rfl rfl rfl rfl
      rfl rfl
      (fun h => absurd h (by decide)) (fun h => absurd h (by decide))
      (fun h => absurd h (by decide))⟩

/-! ## C6: the CG transition on a non-initial row -/

/-- C6: for every non-initial row (`rowsSeen > 0` on entry), the CG
transition with label sign `y = labelToSign label` and feature vector
`x` computes `xc = x·coef` and `xd = x·dir`; if the iteration is even it
adds `σ(-y·xc)·y·x` to the gradient accumulator and leaves the curvature
accumulator unchanged; if the iteration is odd it subtracts
`σ(xc)·σ(-xc)·xd²` from the curvature accumulator and leaves the
gradient accumulator unchanged; in both cases it subtracts
`ln(1 + exp(-y·xc))` from the log-likelihood and increments `rowsSeen`
by 1. -/
theorem cg_transition_row_update (s : LogisticRegressionCG.State)
    (label : ℝ) (x : List ℝ) (ps : Option LogisticRegressionCG.State)
    (h : s.numRows ≠ 0) :
    (LogisticRegressionCG.transition s label x ps).numRows = s.numRows + 1 ∧
    (LogisticRegressionCG.transition s label x ps).logLikelihood =
      s.logLikelihood -
        Real.log (1 + Real.exp (-labelToSign label * dot x s.coef)) ∧
    (s.iteration % 2 = 0 →
      (LogisticRegressionCG.transition s label x ps).gradNew =
        vadd s.gradNew
          (smulv (sigma (-labelToSign label * dot x s.coef) * labelToSign label) x) ∧
      (LogisticRegressionCG.transition s label x ps).dTHd = s.dTHd) ∧
    (s.iteration % 2 = 1 →
      (LogisticRegressionCG.transition s label x ps).dTHd =
        s.dTHd - sigma (dot x s.coef) * sigma (-dot x s.coef) *
          (dot x s.dir * dot x s.dir) ∧
      (LogisticRegressionCG.transition s label x ps).gradNew = s.gradNew) := by
  by_cases hp : s.iteration % 2 = 0
  · refine ⟨?_, ?_, fun _ => ⟨?_, ?_⟩, fun ho => absurd ho (by omega)⟩ <;>
      simp [LogisticRegressionCG.transition, h, hp]
  · refine ⟨?_, ?_, fun he => absurd he hp, fun _ => ⟨?_, ?_⟩⟩ <;>
      simp [LogisticRegressionCG.transition, h, hp, mul_assoc]

/-- Witness for `cg_transition_row_update` at a concrete non-initial
accumulator. -/
theorem cg_transition_row_update_witness :
    cgW1.numRows ≠ 0 ∧
    (LogisticRegressionCG.transition cgW1 1 [1] none).numRows =
      cgW1.numRows + 1 :=
  ⟨by decide, (cg_transition_row_update cgW1 1 [1] none (by decide)).1⟩

/-! ## C10: label-to-sign conversion by truth value -/

/-- C10: in both transition operations the label argument is converted
to a sign by truth value — every nonzero label (including `-1`) is
mapped to `y = +1`, and only the label `0` is mapped to `y = -1` — so
`±1`-encoded labels have the `-1` class treated like the positive
class. -/
theorem label_truth_value_sign :
    labelToSign 0 = -1 ∧
    labelToSign (-1) = 1 ∧
    (∀ l : ℝ, l ≠ 0 → labelToSign l = 1) ∧
    (∀ (s : LogisticRegressionCG.State) (l : ℝ) (x : List ℝ)
        (ps : Option LogisticRegressionCG.State), l ≠ 0 →
      LogisticRegressionCG.transition s l x ps =
        LogisticRegressionCG.transition s 1 x ps) ∧
    (∀ (s : LogisticRegressionIRLS.State) (l : ℝ) (x : List ℝ)
        (ps : Option LogisticRegressionIRLS.State), l ≠ 0 →
      LogisticRegressionIRLS.transition s l x ps =
        LogisticRegressionIRLS.transition s 1 x ps) := by
  refine ⟨by simp [labelToSign], by norm_num [labelToSign],
    fun l hl => by simp [labelToSign, hl], ?_, ?_⟩
  · intro s l x ps hl
    simp [LogisticRegressionCG.transition, labelToSign, hl]
  · intro s l x ps hl
    simp [LogisticRegressionIRLS.transition, labelToSign, hl]

/-- Witness for `label_truth_value_sign`: the label `-1` behaves exactly
like the label `1` on concrete states, in both variants. -/
theorem label_truth_value_sign_witness :
    LogisticRegressionCG.transition cgW1 (-1) [1] none =
      LogisticRegressionCG.transition cgW1 1 [1] none ∧
    LogisticRegressionIRLS.transition irlsW1 (-1) [1] none =
      LogisticRegressionIRLS.transition irlsW1 1 [1] none :=
  ⟨label_truth_value_sign.2.2.2.1 cgW1 (-1) [1] none
      (neg_ne_zero.mpr one_ne_zero),
   label_truth_value_sign.2.2.2.2 irlsW1 (-1) [1] none
      (neg_ne_zero.mpr one_ne_zero)⟩

/-! ## Student-t helper lemmas -/

/-- The Gaussian integrand is integrable on the positive half-line. -/
theorem gaussian_integrableOn_Ioi :
    MeasureTheory.IntegrableOn (fun s : ℝ => Real.exp (-(s ^ 2)))
      (Set.Ioi 0) := by
  have h := integrable_exp_neg_mul_sq (b := (1 : ℝ)) one_pos
  simpa using h.integrableOn

/-- The partial Gaussian integral from `0` to `x ≥ 0` is nonnegative. -/
theorem integral_exp_neg_sq_nonneg (x : ℝ) (hx : 0 ≤ x) :
    0 ≤ ∫ s in (0:ℝ)..x, Real.exp (-(s ^ 2)) :=
  intervalIntegral.integral_nonneg hx (fun _ _ => (Real.exp_pos _).le)

/-- The partial Gaussian integral from `0` to `x ≥ 0` is at most the
full half-line integral `√π / 2`. -/
theorem integral_exp_neg_sq_le (x : ℝ) (hx : 0 ≤ x) :
    (∫ s in (0:ℝ)..x, Real.exp (-(s ^ 2))) ≤ Real.sqrt Real.pi / 2 := by
  rw [intervalIntegral.integral_of_le hx]
  have h1 : (∫ s in Set.Ioc 0 x, Real.exp (-(s ^ 2))) ≤
      ∫ s in Set.Ioi (0:ℝ), Real.exp (-(s ^ 2)) := by
    apply MeasureTheory.setIntegral_mono_set gaussian_integrableOn_Ioi
    · exact Filter.Eventually.of_forall fun s => (Real.exp_pos _).le
    · exact (Set.Ioc_subset_Ioi_self).eventuallyLE
  have h2 : (∫ s in Set.Ioi (0:ℝ), Real.exp (-(s ^ 2))) =
      Real.sqrt Real.pi / 2 := by
    have h := integral_gaussian_Ioi 1
    simpa using h
  linarith

/-- Lemma: `erf 0 = 0`. -/
theorem erf_zero : Prob.erf 0 = 0 := by
  simp [Prob.erf, intervalIntegral.integral_same]

/-- Lemma: `erf` is odd. -/
theorem erf_neg (x : ℝ) : Prob.erf (-x) = -Prob.erf x := by
  unfold Prob.erf
  have h2 := intervalIntegral.integral_comp_neg (a := (0:ℝ)) (b := x)
    (f := fun s => Real.exp (-(s ^ 2)))
  simp only [neg_sq, neg_zero] at h2
  rw [intervalIntegral.integral_symm, ← h2]
  ring

/-- Lemma: `erf x ≤ 1` for `x ≥ 0` (upper half of the `erf` range). -/
theorem erf_le_one_of_nonneg (x : ℝ) (hx : 0 ≤ x) : Prob.erf x ≤ 1 := by
  unfold Prob.erf
  have h1 : (2 / Real.sqrt Real.pi) * (∫ s in (0:ℝ)..x, Real.exp (-(s ^ 2))) ≤
      (2 / Real.sqrt Real.pi) * (Real.sqrt Real.pi / 2) :=
    mul_le_mul_of_nonneg_left (integral_exp_neg_sq_le x hx) (by positivity)
  have hs : Real.sqrt Real.pi ≠ 0 := by positivity
  have h2 : (2 / Real.sqrt Real.pi) * (Real.sqrt Real.pi / 2) = 1 := by
    field_simp
  linarith

/-- Lemma: `erf x ≥ 0` for `x ≥ 0`. -/
theorem erf_nonneg_of_nonneg (x : ℝ) (hx : 0 ≤ x) : 0 ≤ Prob.erf x := by
  unfold Prob.erf
  exact mul_nonneg (by positivity) (integral_exp_neg_sq_nonneg x hx)

/-- Lemma: `erf` takes values in `[-1, 1]`. -/
theorem erf_mem (x : ℝ) : -1 ≤ Prob.erf x ∧ Prob.erf x ≤ 1 := by
  rcases le_or_lt 0 x with hx | hx
  · exact ⟨by linarith [erf_nonneg_of_nonneg x hx], erf_le_one_of_nonneg x hx⟩
  · have hx' : 0 ≤ -x := by linarith
    have h := erf_neg x
    have hu := erf_le_one_of_nonneg (-x) hx'
    have hl := erf_nonneg_of_nonneg (-x) hx'
    rw [h] at hu hl
    exact ⟨by linarith, by linarith⟩

/-- The normal CDF takes values in `[0, 1]`. -/
theorem normal_cdf_mem (t : ℝ) :
    0 ≤ Prob.normal_cdf t ∧ Prob.normal_cdf t ≤ 1 := by
  obtain ⟨h1, h2⟩ := erf_mem (t / Real.sqrt 2)
  unfold Prob.normal_cdf
  constructor <;> linarith

/-- Reflection identity for the normal CDF. -/
theorem normal_cdf_neg (t : ℝ) :
    Prob.normal_cdf (-t) = 1 - Prob.normal_cdf t := by
  unfold Prob.normal_cdf
  rw [neg_div, erf_neg]
  ring

/-- Reflection identity for Gleason's approximation (`200 ≤ nu`
regime). -/
theorem studentT_cdf_approx_neg (nu : ℤ) (t : ℝ) :
    Prob.studentT_cdf_approx nu (-t) = 1 - Prob.studentT_cdf_approx nu t := by
  simp only [Prob.studentT_cdf_approx, neg_mul_neg]
  rcases lt_trichotomy t 0 with ht | ht | ht
  · rw [if_neg (by linarith), if_pos ht, normal_cdf_neg]
    ring
  · subst ht
    simp only [neg_zero, lt_irrefl, if_false, mul_zero, zero_div, add_zero,
      Real.log_one, Real.sqrt_zero]
    have h := normal_cdf_neg 0
    rw [neg_zero] at h
    linarith
  · rw [if_pos (by linarith), if_neg (by linarith), normal_cdf_neg]

/-- The series quantity `A` depends on `t` only through `t²` and `|t|`,
hence is invariant under sign flip. -/
theorem seriesA_neg (nu : ℤ) (t : ℝ) :
    Prob.seriesA nu (-t) = Prob.seriesA nu t := by
  simp only [Prob.seriesA, neg_mul_neg, abs_neg]

/-- The series quantity `A` vanishes at `t = 0`. -/
theorem seriesA_zero (nu : ℤ) : Prob.seriesA nu 0 = 0 := by
  simp [Prob.seriesA]

/-- The clamp `clampA` lands in `[0, 1]`. -/
theorem clampA_mem (A : ℝ) : 0 ≤ Prob.clampA A ∧ Prob.clampA A ≤ 1 := by
  unfold Prob.clampA
  split_ifs <;> constructor <;> linarith

/-- Lemma: `clampA 0 = 0`. -/
theorem clampA_zero : Prob.clampA 0 = 0 := by
  norm_num [Prob.clampA]

/-! ## C8: Student-t CDF domain handling and range -/

/-- C8: for every `nu ≤ 0` and every `t` the Student-t CDF signals an
explicit error/undefined result — `studentT_cdf` yields its undefined
signal (the C `NAN`, modelled `none`) and the in-database wrapper
`student_t_cdf` throws a domain error — while for `nu ≥ 1` it returns a
probability in `[0, 1]`. -/
theorem studentT_cdf_domain_and_range :
    (∀ nu : ℤ, nu ≤ 0 → ∀ t : ℝ,
      Prob.studentT_cdf nu t = none ∧
      Prob.student_t_cdf nu t =
        Except.error
          "Student-t distribution undefined for degree of freedom <= 0") ∧
    (∀ nu : ℤ, 1 ≤ nu → ∀ t : ℝ,
      ∃ p, Prob.studentT_cdf nu t = some p ∧ 0 ≤ p ∧ p ≤ 1) := by
  constructor
  · intro nu h t
    constructor <;> simp [Prob.studentT_cdf, Prob.student_t_cdf, h]
  · intro nu h t
    have h0 : ¬ nu ≤ 0 := by omega
    by_cases h1 : 1000000 ≤ nu
    · exact ⟨Prob.normal_cdf t, by simp [Prob.studentT_cdf, h0, h1],
        (normal_cdf_mem t).1, (normal_cdf_mem t).2⟩
    · by_cases h2 : 200 ≤ nu
      · refine ⟨Prob.studentT_cdf_approx nu t,
          by simp [Prob.studentT_cdf, h0, h1, h2], ?_, ?_⟩
        · simp only [Prob.studentT_cdf_approx]
          exact (normal_cdf_mem _).1
        · simp only [Prob.studentT_cdf_approx]
          exact (normal_cdf_mem _).2
      · obtain ⟨hA0, hA1⟩ := clampA_mem (Prob.seriesA nu t)
        refine ⟨if t < 0 then 0.5 * (1 - Prob.clampA (Prob.seriesA nu t))
            else 1 - 0.5 * (1 - Prob.clampA (Prob.seriesA nu t)),
          by simp [Prob.studentT_cdf, h0, h1, h2], ?_, ?_⟩
        · split_ifs <;> linarith
        · split_ifs <;> linarith

/-- Witness for `studentT_cdf_domain_and_range`: `nu = -1` signals the
domain error, and `nu = 1, t = 0` yields a probability in `[0, 1]`. -/
theorem studentT_cdf_domain_and_range_witness :
    ((-1 : ℤ) ≤ 0 ∧ Prob.studentT_cdf (-1) 0 = none) ∧
    ((1 : ℤ) ≤ 1 ∧ ∃ p, Prob.studentT_cdf 1 0 = some p ∧ 0 ≤ p ∧ p ≤ 1) :=
  ⟨⟨by decide, (studentT_cdf_domain_and_range.1 (-1) (by decide) 0).1⟩,
   ⟨by decide, studentT_cdf_domain_and_range.2 1 (by decide) 0⟩⟩

/-! ## C9: Student-t CDF reflection symmetry -/

/-- C9: over exact real arithmetic, for every `nu ≥ 1` and every real
`t`, `studentT_cdf nu (-t) = 1 - studentT_cdf nu t`: in the series
regime `A` depends only on `|t|` and the sign of `t` selects between
`0.5·(1-A)` and `1 - 0.5·(1-A)`, and in both approximation regimes the
normal CDF applied to a sign-flipped argument gives the complementary
probability. -/
theorem studentT_cdf_symmetry (nu : ℤ) (h : 1 ≤ nu) (t : ℝ) :
    Prob.studentT_cdf nu (-t) =
      Option.map (fun p => 1 - p) (Prob.studentT_cdf nu t) := by
  have h0 : ¬ nu ≤ 0 := by omega
  by_cases h1 : 1000000 ≤ nu
  · simp [Prob.studentT_cdf, h0, h1, normal_cdf_neg]
  · by_cases h2 : 200 ≤ nu
    · simp [Prob.studentT_cdf, h0, h1, h2, studentT_cdf_approx_neg]
    · simp only [Prob.studentT_cdf, if_neg h0, if_neg h1, if_neg h2,
        seriesA_neg, Option.map_some']
      rcases lt_trichotomy t 0 with ht | ht | ht
      · rw [if_neg (by linarith), if_pos ht]
      · subst ht
        rw [neg_zero, if_neg (lt_irrefl 0), seriesA_zero, clampA_zero]
        norm_num
      · rw [if_pos (by linarith), if_neg (by linarith)]
        congr 1
        ring

/-- Witness for `studentT_cdf_symmetry` at `nu = 1`, `t = 1`. -/
theorem studentT_cdf_symmetry_witness :
    (1 : ℤ) ≤ 1 ∧
    Prob.studentT_cdf 1 (-(1 : ℝ)) =
      Option.map (fun p => 1 - p) (Prob.studentT_cdf 1 1) :=
  ⟨by decide, studentT_cdf_symmetry 1 (by decide) 1⟩

end Madlib
